import Mathlib

/-!
Shallow embedding of the turn-order engine `ActionOrderManagerV2`
(src/src/js/action-order-manager-v2.js) and proofs about it.

Modelling conventions:
* JS `Map` / plain objects keyed by strings are association lists
  (`List (κ × ν)`) with JS insertion semantics: setting an existing key
  updates it in place, a fresh key is appended at the end.
* JS array indexing that is always in bounds in the regimes the theorems
  cover is totalised with `List.getD` and a default element.
* `Array.prototype.sort((a,b) => a-b)` on the (duplicate-free) seat keys
  is ascending insertion sort.
* The four street cursor keys of `currentActionIndex` are the inductive
  type `Street`; the order tables, cursors and the status registry live
  in `ManagerState`.
* The truthiness guard `if (a.player)` on an action record is modelled
  as the player string being non-empty (the empty string is the falsy
  string value).
-/

/-- A roster entry `{name, seat}` handed to `initializeHand`. -/
structure Player where
  name : String
  seat : Nat
deriving DecidableEq, Repr

/-- One entry of an order table: `{player, seat, position, priority}`. -/
structure ActionSlot where
  player : String
  seat : Nat
  position : String
  priority : Nat
deriving DecidableEq, Repr

/-- One entry of the intermediate `positions` array built inside
`createPreflopOrder`: `{player, seat, position, index}`. -/
structure PosEntry where
  player : Player
  seat : Nat
  position : String
  index : Nat
deriving DecidableEq, Repr

/-- Association-list lookup, mirroring `Map.get` / JS object indexing:
first (and for the maps built here, only) binding of the key wins. -/
def lookupAssoc {α β : Type} [DecidableEq α] : List (α × β) → α → Option β
  | [], _ => none
  | kv :: rest, k => if kv.1 = k then some kv.2 else lookupAssoc rest k

/-- Association-list update, mirroring `Map.set` / JS object property
assignment: an existing key keeps its position and gets the new value, a
fresh key is appended at the end. -/
def setAssoc {α β : Type} [DecidableEq α] (m : List (α × β)) (k : α) (v : β) :
    List (α × β) :=
  if m.any (fun kv => kv.1 = k) then
    m.map (fun kv => if kv.1 = k then (k, v) else kv)
  else m ++ [(k, v)]

/-- The `seatMap` built by both order builders:
`players.forEach(p => seatMap.set(p.seat, p))`. -/
def buildSeatMap (players : List Player) : List (Nat × Player) :=
  players.foldl (fun m p => setAssoc m p.seat p) []

/-- Model of `Array.from(seatMap.keys()).sort((a, b) => a - b)`: the distinct
occupied seats in ascending numeric order. -/
def occupiedSeatsList (players : List Player) : List Nat :=
  List.insertionSort (fun a b => a ≤ b) ((buildSeatMap players).map Prod.fst)

/-- Model of `Array.prototype.indexOf`, returning `none` for JS `-1`. -/
def idxOf (target : Nat) : List Nat → Option Nat
  | [] => none
  | x :: xs => if x = target then some 0 else (idxOf target xs).map (· + 1)

/-- The position-label `if`/`else if` chain shared verbatim by
`createPreflopOrder` and `createPostflopOrder` (first match wins). -/
def positionLabel (totalPlayers i : Nat) : String :=
  if i = 0 then "SB"
  else if i = 1 then "BB"
  else if i = totalPlayers - 1 then "BTN"
  else if i = 2 then "UTG"
  else if i = 3 then "UTG+1"
  else if i = 4 then "MP1"
  else if i = 5 then "MP2"
  else if i = totalPlayers - 2 then "CO"
  else "MP" ++ toString (i - 2)

/-- Default `PosEntry` used to totalise in-bounds JS array indexing. -/
def defaultEntry : PosEntry := ⟨⟨"", 0⟩, 0, "", 0⟩

/-- The `positions` array of `createPreflopOrder`: for each relative
index `i` (clockwise from the seat after the button) the resolved seat,
player and label. `btnIndex` is the index of the button seat in the
sorted occupied-seat list. -/
def resolvePositions (players : List Player) (btnIndex : Nat) : List PosEntry :=
  let seatMap := buildSeatMap players
  let occupiedSeats := occupiedSeatsList players
  let totalPlayers := occupiedSeats.length
  (List.range totalPlayers).map (fun i =>
    let seat := occupiedSeats.getD ((btnIndex + i + 1) % totalPlayers) 0
    let player := (lookupAssoc seatMap seat).getD ⟨"", 0⟩
    ⟨player, seat, positionLabel totalPlayers i, i⟩)

/-- Loop body of the preflop emission loop
`for (let i = 2; i < totalPlayers; i++) order.push({...})`:
priority is the length of the order built so far. -/
def preflopStep (positions : List PosEntry) (order : List ActionSlot) (i : Nat) :
    List ActionSlot :=
  let e := positions.getD i defaultEntry
  order ++ [⟨e.player.name, e.seat, e.position, order.length⟩]

/-- Model of `createPreflopOrder(players, buttonPosition)`: UTG..BTN first
(relative indices 2..N−1), then the SB slot, then the BB slot; empty
table when the button seat is not among the occupied seats. -/
def createPreflopOrder (players : List Player) (buttonPosition : Nat) :
    List ActionSlot :=
  let occupiedSeats := occupiedSeatsList players
  let totalPlayers := occupiedSeats.length
  match idxOf buttonPosition occupiedSeats with
  | none => []
  | some btnIndex =>
    let positions := resolvePositions players btnIndex
    let afterUTG := (List.range' 2 (totalPlayers - 2)).foldl (preflopStep positions) []
    let e0 := positions.getD 0 defaultEntry
    let withSB := afterUTG ++ [⟨e0.player.name, e0.seat, "SB", afterUTG.length⟩]
    let e1 := positions.getD 1 defaultEntry
    withSB ++ [⟨e1.player.name, e1.seat, "BB", withSB.length⟩]

/-- Model of `createPostflopOrder(players, buttonPosition)`: all N resolved slots
in rotation order with `priority: i`; empty table when the button seat
is not among the occupied seats. -/
def createPostflopOrder (players : List Player) (buttonPosition : Nat) :
    List ActionSlot :=
  let seatMap := buildSeatMap players
  let occupiedSeats := occupiedSeatsList players
  let totalPlayers := occupiedSeats.length
  match idxOf buttonPosition occupiedSeats with
  | none => []
  | some btnIndex =>
    (List.range totalPlayers).map (fun i =>
      let seat := occupiedSeats.getD ((btnIndex + i + 1) % totalPlayers) 0
      let player := (lookupAssoc seatMap seat).getD ⟨"", 0⟩
      ⟨player.name, seat, positionLabel totalPlayers i, i⟩)

/-- The slot `createPostflopOrder` emits for relative index `i` (and
whose player/seat/label `createPreflopOrder` emits for the same relative
index, with a different priority). Used to state the order theorems. -/
def rotationSlot (players : List Player) (buttonPosition : Nat) (i : Nat) :
    ActionSlot :=
  let seatMap := buildSeatMap players
  let occupiedSeats := occupiedSeatsList players
  let totalPlayers := occupiedSeats.length
  let btnIndex := (idxOf buttonPosition occupiedSeats).getD 0
  let seat := occupiedSeats.getD ((btnIndex + i + 1) % totalPlayers) 0
  let player := (lookupAssoc seatMap seat).getD ⟨"", 0⟩
  ⟨player.name, seat, positionLabel totalPlayers i, i⟩

/-- The four street keys of `currentActionIndex`. -/
inductive Street where
  | preflop
  | flop
  | turn
  | river
deriving DecidableEq, Repr

/-- The mutable state of one `ActionOrderManagerV2` instance. -/
structure ManagerState where
  handNumber : Option String
  buttonPosition : Nat
  preflopOrder : List ActionSlot
  postflopOrder : List ActionSlot
  currentStreet : Street
  idxPreflop : Nat
  idxFlop : Nat
  idxTurn : Nat
  idxRiver : Nat
  playerStatus : List (String × String)
deriving DecidableEq, Repr

/-- The constructor-produced initial state. -/
def initialState : ManagerState :=
  ⟨none, 1, [], [], Street.preflop, 0, 0, 0, 0, []⟩

/-- Read `this.currentActionIndex[street]`. -/
def ManagerState.actionIndex (s : ManagerState) : Street → Nat
  | Street.preflop => s.idxPreflop
  | Street.flop => s.idxFlop
  | Street.turn => s.idxTurn
  | Street.river => s.idxRiver

/-- Write `this.currentActionIndex[street] = v`. -/
def setIndex (s : ManagerState) (street : Street) (v : Nat) : ManagerState :=
  match street with
  | Street.preflop => { s with idxPreflop := v }
  | Street.flop => { s with idxFlop := v }
  | Street.turn => { s with idxTurn := v }
  | Street.river => { s with idxRiver := v }

/-- Model of the loop `playersInHand.forEach(p => ...)` setting every name to active. -/
def initStatus (players : List Player) : List (String × String) :=
  players.foldl (fun m p => setAssoc m p.name "active") []

/-- Model of `initializeHand(playersInHand, buttonPosition, handNumber)`. Note the
source does not touch `currentStreet` here. -/
def initializeHand (s : ManagerState) (playersInHand : List Player)
    (buttonPosition : Nat) (handNumber : String) : ManagerState :=
  { s with
    handNumber := some handNumber
    buttonPosition := buttonPosition
    playerStatus := initStatus playersInHand
    idxPreflop := 0
    idxFlop := 0
    idxTurn := 0
    idxRiver := 0
    preflopOrder := createPreflopOrder playersInHand buttonPosition
    postflopOrder := createPostflopOrder playersInHand buttonPosition }

/-- Table selection: preflop table for the preflop street, the shared postflop table otherwise. -/
def orderTableFor (s : ManagerState) (street : Street) : List ActionSlot :=
  if street = Street.preflop then s.preflopOrder else s.postflopOrder

/-- Test `this.playerStatus[p.player] === 'active'`. -/
def isActive (statuses : List (String × String)) (name : String) : Bool :=
  lookupAssoc statuses name == some "active"

/-- The `activePlayers` filter of `getCurrentPlayer`. -/
def activeFilter (s : ManagerState) (street : Street) : List ActionSlot :=
  (orderTableFor s street).filter (fun p => isActive s.playerStatus p.player)

/-- Model of `getCurrentPlayer(street)`. -/
def getCurrentPlayer (s : ManagerState) (street : Street) : Option ActionSlot :=
  let activePlayers := activeFilter s street
  if activePlayers.length = 0 then none
  else activePlayers[s.actionIndex street % activePlayers.length]?

/-- Model of `moveToNextPlayer(street)`: bump the street cursor, return the new
state together with the re-derived current player. -/
def moveToNextPlayer (s : ManagerState) (street : Street) :
    ManagerState × Option ActionSlot :=
  let s' := setIndex s street (s.actionIndex street + 1)
  (s', getCurrentPlayer s' street)

/-- Model of `updatePlayerStatus(playerName, status)`: set the status, return the
new state and the count of players still active in the registry. -/
def updatePlayerStatus (s : ManagerState) (playerName status : String) :
    ManagerState × Nat :=
  let s' := { s with playerStatus := setAssoc s.playerStatus playerName status }
  (s', (s'.playerStatus.filter (fun kv => kv.2 == "active")).length)

/-- Model of `advanceToStreet(newStreet)`: set the street, reset its cursor to 0,
return the new state and the first player of that street. -/
def advanceToStreet (s : ManagerState) (newStreet : Street) :
    ManagerState × Option ActionSlot :=
  let s' := setIndex { s with currentStreet := newStreet } newStreet 0
  (s', getCurrentPlayer s' newStreet)

/-- One row of `getActionOrder`'s projection `{...p, status, canAct}`. -/
structure OrderInfo where
  player : String
  seat : Nat
  position : String
  priority : Nat
  status : Option String
  canAct : Bool
deriving DecidableEq, Repr

/-- Model of `getActionOrder(street)`. -/
def getActionOrder (s : ManagerState) (street : Street) : List OrderInfo :=
  (orderTableFor s street).map (fun p =>
    ⟨p.player, p.seat, p.position, p.priority,
      lookupAssoc s.playerStatus p.player, isActive s.playerStatus p.player⟩)

/-- One recorded action `{player, action}`; a missing/empty player field
is the empty string (falsy in the source's `if (a.player)` guard). -/
structure ActionRec where
  player : String
  action : String
deriving DecidableEq, Repr

/-- The `playerActions` object built inside `isBettingRoundComplete`:
`actions.forEach(a => { if (a.player) playerActions[a.player] = a.action })`. -/
def buildPlayerActions (actions : List ActionRec) : List (String × String) :=
  actions.foldl (fun m a => if a.player = "" then m else setAssoc m a.player a.action) []

/-- Model of `isBettingRoundComplete(street, actions)`. -/
def isBettingRoundComplete (s : ManagerState) (street : Street)
    (actions : List ActionRec) : Bool :=
  let activePlayers := (getActionOrder s street).filter (fun p => p.canAct)
  if activePlayers.length ≤ 1 then true
  else
    let playerActions := buildPlayerActions actions
    activePlayers.all (fun p => (lookupAssoc playerActions p.player).isSome)

/-- Model of `endHand()`: clear the hand number, both tables, the cursors, the
registry, and reset the street (the button position is kept). -/
def endHand (s : ManagerState) : ManagerState :=
  { s with
    handNumber := none
    preflopOrder := []
    postflopOrder := []
    idxPreflop := 0
    idxFlop := 0
    idxTurn := 0
    idxRiver := 0
    playerStatus := []
    currentStreet := Street.preflop }

/-- Transcription of the spec's §4.1 precedence rule, written from the
spec's words (first match wins): i=0→SB; i=1→BB; i=N−1→BTN; i=2→UTG;
i=3→UTG+1; i=4→MP1; i=5→MP2; i=N−2→CO; otherwise MP(i−2), where N is
the occupied-seat count. Kept separate from `positionLabel` (which is
translated from the source) so the two can be compared. -/
def positionLabelSpec (n i : Nat) : String :=
  if i = 0 then "SB"
  else if i = 1 then "BB"
  else if i = n - 1 then "BTN"
  else if i = 2 then "UTG"
  else if i = 3 then "UTG+1"
  else if i = 4 then "MP1"
  else if i = 5 then "MP2"
  else if i = n - 2 then "CO"
  else "MP" ++ toString (i - 2)

section SanityChecks

/-- Spec §8 scenario: 4 players at seats 1,3,5,7, button at 7. -/
def scenarioPlayers : List Player :=
  [⟨"p1", 1⟩, ⟨"p3", 3⟩, ⟨"p5", 5⟩, ⟨"p7", 7⟩]

/-- State right after `initializeHand` on the §8 scenario. -/
def scenarioState : ManagerState :=
  initializeHand initialState scenarioPlayers 7 "h1"

/-- Roster whose second player has the (falsy) empty name. -/
def emptyNamePlayers : List Player := [⟨"", 1⟩, ⟨"B", 2⟩]

/-- State right after `initializeHand` on `emptyNamePlayers`. -/
def emptyNameState : ManagerState :=
  initializeHand initialState emptyNamePlayers 1 "h6"

/-- Street actions recording one entry for each of the two players of
`emptyNamePlayers`, including one for the empty-named player. -/
def emptyNameActions : List ActionRec := [⟨"", "call"⟩, ⟨"B", "call"⟩]

/-- Roster with duplicate seats: seats 1 (twice) and 2. -/
def dupSeatPlayers : List Player := [⟨"A", 1⟩, ⟨"B", 1⟩, ⟨"C", 2⟩]

/-- Roster whose players all share one seat (one distinct seat). -/
def oneSeatPlayers : List Player := [⟨"A", 1⟩, ⟨"B", 1⟩]

example : createPreflopOrder scenarioPlayers 7 =
    [⟨"p5", 5, "UTG", 0⟩, ⟨"p7", 7, "BTN", 1⟩, ⟨"p1", 1, "SB", 2⟩, ⟨"p3", 3, "BB", 3⟩] := by
  decide

example : createPostflopOrder scenarioPlayers 7 =
    [⟨"p1", 1, "SB", 0⟩, ⟨"p3", 3, "BB", 1⟩, ⟨"p5", 5, "UTG", 2⟩, ⟨"p7", 7, "BTN", 3⟩] := by
  decide

example :
    getCurrentPlayer ((updatePlayerStatus
      (initializeHand initialState scenarioPlayers 7 "h1") "p5" "folded").1)
      Street.preflop = some ⟨"p7", 7, "BTN", 1⟩ := by
  decide

end SanityChecks

section AssocLemmas

variable {α β : Type} [DecidableEq α]

theorem lookupAssoc_append (m₁ m₂ : List (α × β)) (k : α) :
    lookupAssoc (m₁ ++ m₂) k = (lookupAssoc m₁ k).or (lookupAssoc m₂ k) := by
  induction m₁ with
  | nil => simp [lookupAssoc]
  | cons kv rest ih =>
    by_cases h : kv.1 = k <;> simp [lookupAssoc, h, ih]

theorem lookupAssoc_eq_none_of_any_false {m : List (α × β)} {k : α}
    (h : m.any (fun kv => kv.1 = k) = false) : lookupAssoc m k = none := by
  induction m with
  | nil => rfl
  | cons kv rest ih =>
    simp only [List.any_cons, Bool.or_eq_false_iff] at h
    have h1 : ¬ kv.1 = k := by simpa using h.1
    simp [lookupAssoc, h1, ih h.2]

theorem lookupAssoc_map_update_ne (m : List (α × β)) (k : α) (v : β) {n : α}
    (hne : n ≠ k) :
    lookupAssoc (m.map (fun kv => if kv.1 = k then (k, v) else kv)) n =
      lookupAssoc m n := by
  induction m with
  | nil => rfl
  | cons kv rest ih =>
    by_cases hkv : kv.1 = k
    · have : ¬ (k = n) := fun hh => hne hh.symm
      simp [lookupAssoc, hkv, this, ih, hne, hkv ▸ this]
    · simp [lookupAssoc, hkv, ih]

theorem lookupAssoc_map_update_eq {m : List (α × β)} {k : α} (v : β)
    (hmem : m.any (fun kv => kv.1 = k) = true) :
    lookupAssoc (m.map (fun kv => if kv.1 = k then (k, v) else kv)) k =
      some v := by
  induction m with
  | nil => simp at hmem
  | cons kv rest ih =>
    by_cases hkv : kv.1 = k
    · simp [lookupAssoc, hkv]
    · simp only [List.any_cons, Bool.or_eq_true] at hmem
      have hmem' : rest.any (fun kv => kv.1 = k) = true := by
        rcases hmem with h | h
        · exact absurd (by simpa using h) hkv
        · exact h
      simp [lookupAssoc, hkv, ih hmem']

theorem lookupAssoc_setAssoc (m : List (α × β)) (k : α) (v : β) (n : α) :
    lookupAssoc (setAssoc m k v) n = if n = k then some v else lookupAssoc m n := by
  unfold setAssoc
  by_cases hmem : m.any (fun kv => kv.1 = k) = true
  · rw [if_pos hmem]
    by_cases hn : n = k
    · subst hn; rw [if_pos rfl]; exact lookupAssoc_map_update_eq v hmem
    · rw [if_neg hn]; exact lookupAssoc_map_update_ne m k v hn
  · rw [if_neg hmem]
    rw [lookupAssoc_append]
    by_cases hn : n = k
    · subst hn
      rw [lookupAssoc_eq_none_of_any_false (Bool.eq_false_iff.mpr hmem)]
      simp [lookupAssoc]
    · have hkn : ¬ (k = n) := fun hh => hn hh.symm
      have hone : lookupAssoc [(k, v)] n = none := by
        simp [lookupAssoc, hkn]
      rw [hone, Option.or_none, if_neg hn]

theorem keys_setAssoc (m : List (α × β)) (k : α) (v : β) :
    (setAssoc m k v).map Prod.fst =
      if m.any (fun kv => kv.1 = k) = true then m.map Prod.fst
      else m.map Prod.fst ++ [k] := by
  unfold setAssoc
  by_cases hmem : m.any (fun kv => kv.1 = k) = true
  · rw [if_pos hmem, if_pos hmem, List.map_map]
    refine List.map_congr_left fun kv _ => ?_
    by_cases hkv : kv.1 = k <;> simp [hkv]
  · rw [if_neg hmem, if_neg hmem, List.map_append]
    rfl

theorem any_key_iff (m : List (α × β)) (k : α) :
    m.any (fun kv => kv.1 = k) = true ↔ k ∈ m.map Prod.fst := by
  simp only [List.any_eq_true, List.mem_map, decide_eq_true_eq]

end AssocLemmas

section SeatMapLemmas

theorem mem_keys_foldl_setSeat (x : Nat) :
    ∀ (l : List Player) (m : List (Nat × Player)),
      (x ∈ ((l.foldl (fun m p => setAssoc m p.seat p) m).map Prod.fst) ↔
        x ∈ m.map Prod.fst ∨ x ∈ l.map (fun p => p.seat))
  | [], m => by simp
  | p :: l, m => by
    rw [List.foldl_cons, mem_keys_foldl_setSeat x l (setAssoc m p.seat p)]
    rw [keys_setAssoc]
    by_cases hmem : m.any (fun kv => kv.1 = p.seat) = true
    · rw [if_pos hmem]
      have hx := (any_key_iff m p.seat).mp hmem
      simp only [List.map_cons, List.mem_cons]
      constructor
      · rintro (h | h)
        · exact Or.inl h
        · exact Or.inr (Or.inr h)
      · rintro (h | h | h)
        · exact Or.inl h
        · exact Or.inl (h ▸ hx)
        · exact Or.inr h
    · rw [if_neg hmem]
      simp only [List.mem_append, List.mem_singleton, List.map_cons, List.mem_cons]
      tauto

theorem mem_keys_buildSeatMap (players : List Player) (x : Nat) :
    x ∈ (buildSeatMap players).map Prod.fst ↔ x ∈ players.map (fun p => p.seat) := by
  unfold buildSeatMap
  rw [mem_keys_foldl_setSeat x players []]
  simp

theorem mem_occupiedSeatsList (players : List Player) (x : Nat) :
    x ∈ occupiedSeatsList players ↔ x ∈ players.map (fun p => p.seat) := by
  unfold occupiedSeatsList
  rw [(List.perm_insertionSort _ _).mem_iff]
  exact mem_keys_buildSeatMap players x

end SeatMapLemmas

section IdxOfLemmas

theorem idxOf_eq_none_iff (t : Nat) : ∀ l : List Nat, idxOf t l = none ↔ t ∉ l
  | [] => by simp [idxOf]
  | x :: xs => by
    by_cases h : x = t
    · simp [idxOf, h]
    · have h' : ¬ t = x := fun hh => h hh.symm
      simp [idxOf, h, h', idxOf_eq_none_iff t xs]

theorem exists_idxOf_of_mem {t : Nat} {l : List Nat} (h : t ∈ l) :
    ∃ b, idxOf t l = some b := by
  cases hx : idxOf t l with
  | none => exact absurd h ((idxOf_eq_none_iff t l).mp hx)
  | some b => exact ⟨b, rfl⟩

end IdxOfLemmas

section StatusLemmas

theorem isActive_iff (m : List (String × String)) (n : String) :
    isActive m n = true ↔ lookupAssoc m n = some "active" := by
  simp [isActive]

end StatusLemmas

/-- C8: for every player list and every button seat that is not a member
of the occupied-seat set derived from the players, both
`createPreflopOrder` and `createPostflopOrder` return the empty
OrderTable (soft failure, no exception). -/
theorem claim_c8_invalid_button_soft_fail (players : List Player) (buttonSeat : Nat)
    (hb : buttonSeat ∉ players.map (fun p => p.seat)) :
    createPreflopOrder players buttonSeat = [] ∧
    createPostflopOrder players buttonSeat = [] := by
  have hocc : buttonSeat ∉ occupiedSeatsList players := fun h =>
    hb ((mem_occupiedSeatsList players buttonSeat).mp h)
  have hidx : idxOf buttonSeat (occupiedSeatsList players) = none :=
    (idxOf_eq_none_iff _ _).mpr hocc
  constructor
  · simp [createPreflopOrder, hidx]
  · simp [createPostflopOrder, hidx]

/-- Witness for C8 at a concrete input: one player at seat 1, button at
the unoccupied seat 5. -/
theorem claim_c8_witness :
    (5 ∉ ([⟨"A", 1⟩] : List Player).map (fun p => p.seat)) ∧
    (createPreflopOrder [⟨"A", 1⟩] 5 = [] ∧
     createPostflopOrder [⟨"A", 1⟩] 5 = []) :=
  ⟨by decide, claim_c8_invalid_button_soft_fail [⟨"A", 1⟩] 5 (by decide)⟩

/-- C9: after `endHand`, every query returns the empty/null result
(current player `none`, empty action order, empty registry, zero
cursors, cleared hand id), and a subsequent `initializeHand` rebuilds
both order tables by the same derivation rules and re-creates the
status registry and cursors. -/
theorem claim_c9_endHand_resets (s : ManagerState) (street : Street) :
    getCurrentPlayer (endHand s) street = none ∧
    getActionOrder (endHand s) street = [] ∧
    (endHand s).playerStatus = [] ∧
    (∀ st : Street, (endHand s).actionIndex st = 0) ∧
    (endHand s).handNumber = none ∧
    (∀ (players : List Player) (btn : Nat) (h : String),
      (initializeHand (endHand s) players btn h).preflopOrder =
        createPreflopOrder players btn ∧
      (initializeHand (endHand s) players btn h).postflopOrder =
        createPostflopOrder players btn ∧
      (initializeHand (endHand s) players btn h).playerStatus = initStatus players ∧
      (∀ st : Street, (initializeHand (endHand s) players btn h).actionIndex st = 0)) := by
  refine ⟨?_, ?_, rfl, ?_, rfl, ?_⟩
  · simp [getCurrentPlayer, activeFilter, orderTableFor, endHand]
  · simp [getActionOrder, orderTableFor, endHand]
  · intro st; cases st <;> rfl
  · intro players btn h
    refine ⟨rfl, rfl, rfl, ?_⟩
    intro st; cases st <;> rfl

/-- C5: whenever the count of currently active players (the order table
filtered to `canAct`, exactly as `getCurrentPlayer` filters) is at most
one, `isBettingRoundComplete` returns true for every `actions`
argument. -/
theorem claim_c5_complete_when_few_active (s : ManagerState) (street : Street)
    (actions : List ActionRec)
    (h : ((getActionOrder s street).filter (fun p => p.canAct)).length ≤ 1) :
    isBettingRoundComplete s street actions = true := by
  simp [isBettingRoundComplete, h]

/-- Witness for C5 at a concrete input: the initial state has no active
players, and the round is reported complete despite a pending action
record. -/
theorem claim_c5_witness :
    ((getActionOrder initialState Street.flop).filter (fun p => p.canAct)).length ≤ 1 ∧
    isBettingRoundComplete initialState Street.flop [⟨"x", "bet"⟩] = true :=
  ⟨by decide, claim_c5_complete_when_few_active initialState Street.flop [⟨"x", "bet"⟩]
    (by decide)⟩

/-- C4: for every state whose registry assigns only
active/folded/allin, and every street: if some slot of the selected
order table belongs to an active player then `getCurrentPlayer` returns
the slot at position (street cursor mod filtered length) of the
status-filtered table, and that slot's player is active; if no slot's
player is active it returns `none`. -/
theorem claim_c4_current_player_active (s : ManagerState) (street : Street)
    (_hstatus : ∀ kv ∈ s.playerStatus,
      kv.2 = "active" ∨ kv.2 = "folded" ∨ kv.2 = "allin") :
    ((∃ p ∈ orderTableFor s street,
        lookupAssoc s.playerStatus p.player = some "active") →
      ∃ slot, getCurrentPlayer s street = some slot ∧
        lookupAssoc s.playerStatus slot.player = some "active" ∧
        (activeFilter s street)[s.actionIndex street % (activeFilter s street).length]? =
          some slot) ∧
    ((∀ p ∈ orderTableFor s street,
        lookupAssoc s.playerStatus p.player ≠ some "active") →
      getCurrentPlayer s street = none) := by
  constructor
  · rintro ⟨p, hp, hact⟩
    have hmem : p ∈ activeFilter s street :=
      List.mem_filter.mpr ⟨hp, (isActive_iff _ _).mpr hact⟩
    have hlen : 0 < (activeFilter s street).length :=
      List.length_pos.mpr (List.ne_nil_of_mem hmem)
    have hlt : s.actionIndex street % (activeFilter s street).length <
        (activeFilter s street).length := Nat.mod_lt _ hlen
    refine ⟨(activeFilter s street)[s.actionIndex street % (activeFilter s street).length],
      ?_, ?_, ?_⟩
    · have hne : ¬ (activeFilter s street).length = 0 := by omega
      simp only [getCurrentPlayer]
      rw [if_neg hne]
      exact List.getElem?_eq_getElem hlt
    · have hm := List.getElem_mem hlt
      exact (isActive_iff _ _).mp (List.mem_filter.mp hm).2
    · exact List.getElem?_eq_getElem hlt
  · intro hnone
    have hfil : activeFilter s street = [] := by
      unfold activeFilter
      refine List.filter_eq_nil_iff.mpr fun p hp => ?_
      intro hc
      exact hnone p hp ((isActive_iff _ _).mp hc)
    simp [getCurrentPlayer, hfil]

/-- Witness for C4 at a concrete input: the §8 scenario state on the
preflop street. -/
theorem claim_c4_witness :
    (∀ kv ∈ scenarioState.playerStatus,
      kv.2 = "active" ∨ kv.2 = "folded" ∨ kv.2 = "allin") ∧
    (((∃ p ∈ orderTableFor scenarioState Street.preflop,
        lookupAssoc scenarioState.playerStatus p.player = some "active") →
      ∃ slot, getCurrentPlayer scenarioState Street.preflop = some slot ∧
        lookupAssoc scenarioState.playerStatus slot.player = some "active" ∧
        (activeFilter scenarioState Street.preflop)[scenarioState.actionIndex Street.preflop %
          (activeFilter scenarioState Street.preflop).length]? = some slot) ∧
    ((∀ p ∈ orderTableFor scenarioState Street.preflop,
        lookupAssoc scenarioState.playerStatus p.player ≠ some "active") →
      getCurrentPlayer scenarioState Street.preflop = none)) :=
  ⟨by decide, claim_c4_current_player_active scenarioState Street.preflop (by decide)⟩

section OrderBuilderLemmas

theorem resolvePositions_getD (players : List Player) (b i : Nat)
    (hi : i < (occupiedSeatsList players).length) :
    (resolvePositions players b).getD i defaultEntry =
      ⟨(lookupAssoc (buildSeatMap players)
          ((occupiedSeatsList players).getD
            ((b + i + 1) % (occupiedSeatsList players).length) 0)).getD ⟨"", 0⟩,
       (occupiedSeatsList players).getD
         ((b + i + 1) % (occupiedSeatsList players).length) 0,
       positionLabel (occupiedSeatsList players).length i, i⟩ := by
  simp only [resolvePositions]
  rw [List.getD_eq_getElem?_getD, List.getElem?_map, List.getElem?_range hi]
  rfl

theorem rotationSlot_eq_entry (players : List Player) (btn b i : Nat)
    (h : idxOf btn (occupiedSeatsList players) = some b)
    (hi : i < (occupiedSeatsList players).length) :
    rotationSlot players btn i =
      ⟨((resolvePositions players b).getD i defaultEntry).player.name,
       ((resolvePositions players b).getD i defaultEntry).seat,
       ((resolvePositions players b).getD i defaultEntry).position, i⟩ := by
  rw [resolvePositions_getD players b i hi]
  simp only [rotationSlot, h, Option.getD_some]

theorem createPostflopOrder_eq_map (players : List Player) (btn b : Nat)
    (h : idxOf btn (occupiedSeatsList players) = some b) :
    createPostflopOrder players btn =
      (List.range (occupiedSeatsList players).length).map (rotationSlot players btn) := by
  simp only [createPostflopOrder, h]
  refine List.map_congr_left fun i _ => ?_
  simp only [rotationSlot, h, Option.getD_some]

theorem preflop_loop_eq (positions : List PosEntry) :
    ∀ (n s : Nat) (acc : List ActionSlot), acc.length + 2 = s →
      (List.range' s n).foldl (preflopStep positions) acc =
        acc ++ (List.range' s n).map (fun i =>
          ⟨(positions.getD i defaultEntry).player.name,
           (positions.getD i defaultEntry).seat,
           (positions.getD i defaultEntry).position, i - 2⟩)
  | 0, s, acc, _ => by simp [List.range']
  | n + 1, s, acc, h => by
    rw [List.range'_succ, List.foldl_cons, List.map_cons]
    have hpri : acc.length = s - 2 := by omega
    have hstep : preflopStep positions acc s =
        acc ++ [⟨(positions.getD s defaultEntry).player.name,
                 (positions.getD s defaultEntry).seat,
                 (positions.getD s defaultEntry).position, s - 2⟩] := by
      simp [preflopStep, hpri]
    rw [hstep]
    have hlen' : (acc ++ [(⟨(positions.getD s defaultEntry).player.name,
        (positions.getD s defaultEntry).seat,
        (positions.getD s defaultEntry).position, s - 2⟩ : ActionSlot)]).length + 2 =
        s + 1 := by
      rw [List.length_append, List.length_singleton]
      omega
    rw [preflop_loop_eq positions n (s + 1) _ hlen']
    simp [List.append_assoc]

theorem createPreflopOrder_eq (players : List Player) (btn b : Nat)
    (h : idxOf btn (occupiedSeatsList players) = some b)
    (hN : 2 ≤ (occupiedSeatsList players).length) :
    createPreflopOrder players btn =
      ((List.range' 2 ((occupiedSeatsList players).length - 2)).map
        (fun i => { (rotationSlot players btn i) with priority := i - 2 })) ++
      [{ (rotationSlot players btn 0) with
         position := "SB",
         priority := (occupiedSeatsList players).length - 2 },
       { (rotationSlot players btn 1) with
         position := "BB",
         priority := (occupiedSeatsList players).length - 1 }] := by
  have h0 : rotationSlot players btn 0 =
      ⟨((resolvePositions players b).getD 0 defaultEntry).player.name,
       ((resolvePositions players b).getD 0 defaultEntry).seat,
       ((resolvePositions players b).getD 0 defaultEntry).position, 0⟩ :=
    rotationSlot_eq_entry players btn b 0 h (by omega)
  have h1 : rotationSlot players btn 1 =
      ⟨((resolvePositions players b).getD 1 defaultEntry).player.name,
       ((resolvePositions players b).getD 1 defaultEntry).seat,
       ((resolvePositions players b).getD 1 defaultEntry).position, 1⟩ :=
    rotationSlot_eq_entry players btn b 1 h (by omega)
  simp only [createPreflopOrder, h]
  rw [preflop_loop_eq (resolvePositions players b)
    ((occupiedSeatsList players).length - 2) 2 [] rfl]
  rw [List.nil_append, List.append_assoc]
  have hlen : ((List.range' 2 ((occupiedSeatsList players).length - 2)).map
      (fun i =>
        (⟨(((resolvePositions players b).getD i defaultEntry)).player.name,
          (((resolvePositions players b).getD i defaultEntry)).seat,
          (((resolvePositions players b).getD i defaultEntry)).position,
          i - 2⟩ : ActionSlot))).length =
      (occupiedSeatsList players).length - 2 := by
    rw [List.length_map, List.length_range']
  rw [hlen]
  congr 1
  · refine List.map_congr_left fun i hi => ?_
    have hi' : i < (occupiedSeatsList players).length := by
      rw [List.range'_eq_map_range] at hi
      obtain ⟨j, hj, rfl⟩ := List.mem_map.mp hi
      have := List.mem_range.mp hj
      omega
    rw [rotationSlot_eq_entry players btn b i h hi']
  · have harith : (occupiedSeatsList players).length - 2 + 1 =
        (occupiedSeatsList players).length - 1 := by omega
    rw [List.length_append, hlen]
    simp only [List.length_singleton]
    rw [harith, h0, h1]
    rfl

end OrderBuilderLemmas

section RotationHelpers

theorem rotationSlot_position (players : List Player) (btn i : Nat) :
    (rotationSlot players btn i).position =
      positionLabel (occupiedSeatsList players).length i := by
  simp [rotationSlot]

theorem rotationSlot_priority (players : List Player) (btn i : Nat) :
    (rotationSlot players btn i).priority = i := by
  simp [rotationSlot]

theorem range'_sub_two (m : Nat) :
    (List.range' 2 m).map (fun i => i - 2) = List.range m := by
  rw [List.range'_eq_map_range, List.map_map]
  have hf : ((fun i => i - 2) ∘ (fun x => 2 + x)) = fun j : Nat => j := by
    funext j
    simp
  rw [hf, show (fun j : Nat => j) = id from rfl, List.map_id]

theorem range_append_two (N : Nat) (hN : 2 ≤ N) :
    List.range (N - 2) ++ [N - 2, N - 1] = List.range N := by
  have h1 : N - 2 + 1 = N - 1 := by omega
  have h2 : N - 1 + 1 = N := by omega
  have hsplit : List.range (N - 2) ++ [N - 2, N - 1] =
      (List.range (N - 2) ++ [N - 2]) ++ [N - 1] := by simp
  rw [hsplit, ← List.range_succ, Nat.succ_eq_add_one, h1, ← List.range_succ,
    Nat.succ_eq_add_one, h2]

end RotationHelpers

/-- C1: for N ≥ 2 occupied seats and a button seat in the occupied set,
the preflop table emits the rotation slots for relative indices
2..N−1 (priority = emission index), then the SB slot, then the BB slot;
in particular the final two entries' positions are SB then BB. -/
theorem claim_c1_preflop_structure (players : List Player) (buttonSeat : Nat)
    (hN : 2 ≤ (occupiedSeatsList players).length)
    (hb : buttonSeat ∈ occupiedSeatsList players) :
    (createPreflopOrder players buttonSeat).length = (occupiedSeatsList players).length ∧
    (∀ j, j < (occupiedSeatsList players).length - 2 →
      (createPreflopOrder players buttonSeat)[j]? =
        some { (rotationSlot players buttonSeat (j + 2)) with priority := j }) ∧
    ((createPreflopOrder players buttonSeat)[(occupiedSeatsList players).length - 2]? =
      some { (rotationSlot players buttonSeat 0) with
             position := "SB",
             priority := (occupiedSeatsList players).length - 2 }) ∧
    ((createPreflopOrder players buttonSeat)[(occupiedSeatsList players).length - 1]? =
      some { (rotationSlot players buttonSeat 1) with
             position := "BB",
             priority := (occupiedSeatsList players).length - 1 }) ∧
    (((createPreflopOrder players buttonSeat).drop
        ((occupiedSeatsList players).length - 2)).map (fun p => p.position) =
      ["SB", "BB"]) := by
  obtain ⟨b, hbi⟩ := exists_idxOf_of_mem hb
  rw [createPreflopOrder_eq players buttonSeat b hbi hN]
  have hAlen : ((List.range' 2 ((occupiedSeatsList players).length - 2)).map
      (fun i => { (rotationSlot players buttonSeat i) with priority := i - 2 })).length =
      (occupiedSeatsList players).length - 2 := by
    rw [List.length_map, List.length_range']
  refine ⟨?_, ?_, ?_, ?_, ?_⟩
  · rw [List.length_append, hAlen]
    simp only [List.length_cons, List.length_nil]
    omega
  · intro j hj
    rw [List.getElem?_append_left (by rw [hAlen]; exact hj)]
    rw [List.getElem?_map, List.getElem?_range' 2 1 hj]
    have hji : 2 + 1 * j = j + 2 := by omega
    rw [Option.map_some', hji]
    have hjp : j + 2 - 2 = j := by omega
    rw [hjp]
  · rw [List.getElem?_append_right (by rw [hAlen])]
    rw [hAlen, Nat.sub_self]
    rfl
  · rw [List.getElem?_append_right (by rw [hAlen]; omega)]
    rw [hAlen]
    have hone : (occupiedSeatsList players).length - 1 -
        ((occupiedSeatsList players).length - 2) = 1 := by omega
    rw [hone]
    rfl
  · rw [List.drop_left' hAlen]
    rfl

/-- Witness for C1 at the §8 scenario (4 seats, button at seat 7). -/
theorem claim_c1_witness :
    2 ≤ (occupiedSeatsList scenarioPlayers).length ∧
    7 ∈ occupiedSeatsList scenarioPlayers ∧
    ((createPreflopOrder scenarioPlayers 7).length = (occupiedSeatsList scenarioPlayers).length ∧
    (∀ j, j < (occupiedSeatsList scenarioPlayers).length - 2 →
      (createPreflopOrder scenarioPlayers 7)[j]? =
        some { (rotationSlot scenarioPlayers 7 (j + 2)) with priority := j }) ∧
    ((createPreflopOrder scenarioPlayers 7)[(occupiedSeatsList scenarioPlayers).length - 2]? =
      some { (rotationSlot scenarioPlayers 7 0) with
             position := "SB",
             priority := (occupiedSeatsList scenarioPlayers).length - 2 }) ∧
    ((createPreflopOrder scenarioPlayers 7)[(occupiedSeatsList scenarioPlayers).length - 1]? =
      some { (rotationSlot scenarioPlayers 7 1) with
             position := "BB",
             priority := (occupiedSeatsList scenarioPlayers).length - 1 }) ∧
    (((createPreflopOrder scenarioPlayers 7).drop
        ((occupiedSeatsList scenarioPlayers).length - 2)).map (fun p => p.position) =
      ["SB", "BB"])) :=
  ⟨by decide, by decide,
    claim_c1_preflop_structure scenarioPlayers 7 (by decide) (by decide)⟩

/-- C2 (amended): for N ≥ 2 occupied seats and a button seat in the
occupied set, the postflop table emits all N rotation slots for
i = 0..N−1 with priority i; its first two entries are SB then BB; its
last entry is BTN when N ≥ 3, while for N = 2 (heads-up) the last entry
is labeled BB by the resolver's precedence rule. -/
theorem claim_c2_postflop_structure (players : List Player) (buttonSeat : Nat)
    (hN : 2 ≤ (occupiedSeatsList players).length)
    (hb : buttonSeat ∈ occupiedSeatsList players) :
    (createPostflopOrder players buttonSeat).length = (occupiedSeatsList players).length ∧
    (∀ i, i < (occupiedSeatsList players).length →
      (createPostflopOrder players buttonSeat)[i]? =
        some (rotationSlot players buttonSeat i)) ∧
    ((createPostflopOrder players buttonSeat)[0]?.map (fun p => p.position) =
      some "SB") ∧
    ((createPostflopOrder players buttonSeat)[1]?.map (fun p => p.position) =
      some "BB") ∧
    (3 ≤ (occupiedSeatsList players).length →
      ((createPostflopOrder players buttonSeat).getLast?).map (fun p => p.position) =
        some "BTN") ∧
    ((occupiedSeatsList players).length = 2 →
      ((createPostflopOrder players buttonSeat).getLast?).map (fun p => p.position) =
        some "BB") := by
  obtain ⟨b, hbi⟩ := exists_idxOf_of_mem hb
  rw [createPostflopOrder_eq_map players buttonSeat b hbi]
  have hlen : ((List.range (occupiedSeatsList players).length).map
      (rotationSlot players buttonSeat)).length = (occupiedSeatsList players).length := by
    rw [List.length_map, List.length_range]
  have hget : ∀ i, i < (occupiedSeatsList players).length →
      ((List.range (occupiedSeatsList players).length).map
        (rotationSlot players buttonSeat))[i]? =
        some (rotationSlot players buttonSeat i) := by
    intro i hi
    rw [List.getElem?_map, List.getElem?_range hi, Option.map_some']
  refine ⟨hlen, hget, ?_, ?_, ?_, ?_⟩
  · rw [hget 0 (by omega), Option.map_some', rotationSlot_position]
    simp [positionLabel]
  · rw [hget 1 (by omega), Option.map_some', rotationSlot_position]
    simp [positionLabel]
  · intro h3
    rw [List.getLast?_eq_getElem?, hlen]
    rw [hget ((occupiedSeatsList players).length - 1) (by omega), Option.map_some',
      rotationSlot_position]
    have hne0 : ¬ ((occupiedSeatsList players).length - 1 = 0) := by omega
    have hne1 : ¬ ((occupiedSeatsList players).length - 1 = 1) := by omega
    simp [positionLabel, hne0, hne1]
  · intro h2
    rw [List.getLast?_eq_getElem?, hlen]
    have hidx : (occupiedSeatsList players).length - 1 = 1 := by omega
    rw [hidx]
    have h1lt : (1 : Nat) < (occupiedSeatsList players).length := by omega
    rw [hget 1 h1lt, Option.map_some', rotationSlot_position]
    simp [positionLabel]

/-- C2 counterexample: heads-up table (two occupied seats, valid button)
whose last postflop entry is labeled BB, not BTN as the claim states. -/
theorem claim_c2_counterexample :
    2 ≤ (occupiedSeatsList [⟨"A", 1⟩, ⟨"B", 2⟩]).length ∧
    1 ∈ occupiedSeatsList [⟨"A", 1⟩, ⟨"B", 2⟩] ∧
    ((createPostflopOrder [⟨"A", 1⟩, ⟨"B", 2⟩] 1).getLast?).map (fun p => p.position) ≠
      some "BTN" ∧
    ((createPostflopOrder [⟨"A", 1⟩, ⟨"B", 2⟩] 1).getLast?).map (fun p => p.position) =
      some "BB" :=
  ⟨by decide, by decide, by decide, by decide⟩

/-- Witness for C2's amended theorem at the §8 scenario (N = 4). -/
theorem claim_c2_witness :
    2 ≤ (occupiedSeatsList scenarioPlayers).length ∧
    7 ∈ occupiedSeatsList scenarioPlayers ∧
    ((createPostflopOrder scenarioPlayers 7).length = (occupiedSeatsList scenarioPlayers).length ∧
    (∀ i, i < (occupiedSeatsList scenarioPlayers).length →
      (createPostflopOrder scenarioPlayers 7)[i]? =
        some (rotationSlot scenarioPlayers 7 i)) ∧
    ((createPostflopOrder scenarioPlayers 7)[0]?.map (fun p => p.position) =
      some "SB") ∧
    ((createPostflopOrder scenarioPlayers 7)[1]?.map (fun p => p.position) =
      some "BB") ∧
    (3 ≤ (occupiedSeatsList scenarioPlayers).length →
      ((createPostflopOrder scenarioPlayers 7).getLast?).map (fun p => p.position) =
        some "BTN") ∧
    ((occupiedSeatsList scenarioPlayers).length = 2 →
      ((createPostflopOrder scenarioPlayers 7).getLast?).map (fun p => p.position) =
        some "BB")) :=
  ⟨by decide, by decide,
    claim_c2_postflop_structure scenarioPlayers 7 (by decide) (by decide)⟩

/-- C7: for N ≥ 2 occupied seats and a valid button seat, both tables
built by `initializeHand` have length N and their priorities are
exactly 0..N−1 in emission order. -/
theorem claim_c7_lengths_priorities (s : ManagerState) (handId : String)
    (players : List Player) (buttonSeat : Nat)
    (hN : 2 ≤ (occupiedSeatsList players).length)
    (hb : buttonSeat ∈ occupiedSeatsList players) :
    ((initializeHand s players buttonSeat handId).preflopOrder).length =
      (occupiedSeatsList players).length ∧
    ((initializeHand s players buttonSeat handId).postflopOrder).length =
      (occupiedSeatsList players).length ∧
    (((initializeHand s players buttonSeat handId).preflopOrder).map
      (fun p => p.priority) = List.range (occupiedSeatsList players).length) ∧
    (((initializeHand s players buttonSeat handId).postflopOrder).map
      (fun p => p.priority) = List.range (occupiedSeatsList players).length) := by
  obtain ⟨b, hbi⟩ := exists_idxOf_of_mem hb
  have hpre := createPreflopOrder_eq players buttonSeat b hbi hN
  have hpost := createPostflopOrder_eq_map players buttonSeat b hbi
  have hip : (initializeHand s players buttonSeat handId).preflopOrder =
      createPreflopOrder players buttonSeat := rfl
  have hiq : (initializeHand s players buttonSeat handId).postflopOrder =
      createPostflopOrder players buttonSeat := rfl
  refine ⟨?_, ?_, ?_, ?_⟩
  · rw [hip, hpre, List.length_append, List.length_map, List.length_range']
    simp only [List.length_cons, List.length_nil]
    omega
  · rw [hiq, hpost, List.length_map, List.length_range]
  · rw [hip, hpre, List.map_append, List.map_map]
    have hhead : (List.range' 2 ((occupiedSeatsList players).length - 2)).map
        ((fun p : ActionSlot => p.priority) ∘
          (fun i => { (rotationSlot players buttonSeat i) with priority := i - 2 })) =
        (List.range' 2 ((occupiedSeatsList players).length - 2)).map (fun i => i - 2) :=
      List.map_congr_left fun i _ => rfl
    rw [hhead, range'_sub_two]
    have htail : ([{ (rotationSlot players buttonSeat 0) with
            position := "SB",
            priority := (occupiedSeatsList players).length - 2 },
          { (rotationSlot players buttonSeat 1) with
            position := "BB",
            priority := (occupiedSeatsList players).length - 1 }].map
        (fun p : ActionSlot => p.priority)) =
        [(occupiedSeatsList players).length - 2,
         (occupiedSeatsList players).length - 1] := rfl
    rw [htail, range_append_two _ hN]
  · rw [hiq, hpost, List.map_map]
    have hcomp : ((List.range (occupiedSeatsList players).length).map
        ((fun p : ActionSlot => p.priority) ∘ rotationSlot players buttonSeat)) =
        (List.range (occupiedSeatsList players).length).map (fun i => i) :=
      List.map_congr_left fun i _ => rotationSlot_priority players buttonSeat i
    rw [hcomp, List.map_id']

/-- Witness for C7 at the §8 scenario. -/
theorem claim_c7_witness :
    2 ≤ (occupiedSeatsList scenarioPlayers).length ∧
    7 ∈ occupiedSeatsList scenarioPlayers ∧
    (((initializeHand initialState scenarioPlayers 7 "h1").preflopOrder).length =
      (occupiedSeatsList scenarioPlayers).length ∧
    ((initializeHand initialState scenarioPlayers 7 "h1").postflopOrder).length =
      (occupiedSeatsList scenarioPlayers).length ∧
    (((initializeHand initialState scenarioPlayers 7 "h1").preflopOrder).map
      (fun p => p.priority) = List.range (occupiedSeatsList scenarioPlayers).length) ∧
    (((initializeHand initialState scenarioPlayers 7 "h1").postflopOrder).map
      (fun p => p.priority) = List.range (occupiedSeatsList scenarioPlayers).length)) :=
  ⟨by decide, by decide,
    claim_c7_lengths_priorities initialState "h1" scenarioPlayers 7 (by decide) (by decide)⟩

/-- C3: the label for relative index i is given by the fixed
first-match-wins precedence (transcribed as `positionLabelSpec`); the
source's `positionLabel` equals it at every input, and both the
postflop table (at emission index i) and the preflop table (at emission
index i−2 for i = 2..N−1, and at its final two slots for i = 0 and
i = 1) carry exactly these labels. -/
theorem claim_c3_position_rule (players : List Player) (buttonSeat : Nat)
    (hN : 2 ≤ (occupiedSeatsList players).length)
    (hb : buttonSeat ∈ occupiedSeatsList players) :
    (∀ n i, positionLabel n i = positionLabelSpec n i) ∧
    (∀ i, i < (occupiedSeatsList players).length →
      ((createPostflopOrder players buttonSeat)[i]?).map (fun p => p.position) =
        some (positionLabelSpec (occupiedSeatsList players).length i)) ∧
    (∀ i, 2 ≤ i → i < (occupiedSeatsList players).length →
      ((createPreflopOrder players buttonSeat)[i - 2]?).map (fun p => p.position) =
        some (positionLabelSpec (occupiedSeatsList players).length i)) ∧
    (((createPreflopOrder players buttonSeat)[(occupiedSeatsList players).length - 2]?).map
        (fun p => p.position) =
      some (positionLabelSpec (occupiedSeatsList players).length 0)) ∧
    (((createPreflopOrder players buttonSeat)[(occupiedSeatsList players).length - 1]?).map
        (fun p => p.position) =
      some (positionLabelSpec (occupiedSeatsList players).length 1)) := by
  obtain ⟨b, hbi⟩ := exists_idxOf_of_mem hb
  have hpre := createPreflopOrder_eq players buttonSeat b hbi hN
  have hpost := createPostflopOrder_eq_map players buttonSeat b hbi
  have hspec : ∀ n i, positionLabel n i = positionLabelSpec n i := fun n i => rfl
  have hAlen : ((List.range' 2 ((occupiedSeatsList players).length - 2)).map
      (fun i => { (rotationSlot players buttonSeat i) with priority := i - 2 })).length =
      (occupiedSeatsList players).length - 2 := by
    rw [List.length_map, List.length_range']
  refine ⟨hspec, ?_, ?_, ?_, ?_⟩
  · intro i hi
    rw [hpost, List.getElem?_map, List.getElem?_range hi, Option.map_some',
      Option.map_some', rotationSlot_position, hspec]
  · intro i h2i hiN
    rw [hpre]
    have hj : i - 2 < (occupiedSeatsList players).length - 2 := by omega
    rw [List.getElem?_append_left (by rw [hAlen]; exact hj)]
    rw [List.getElem?_map, List.getElem?_range' 2 1 hj, Option.map_some', Option.map_some']
    have hi2 : 2 + 1 * (i - 2) = i := by omega
    rw [hi2]
    rfl
  · rw [hpre, List.getElem?_append_right (by rw [hAlen])]
    rw [hAlen, Nat.sub_self]
    rfl
  · rw [hpre, List.getElem?_append_right (by rw [hAlen]; omega)]
    rw [hAlen]
    have hone : (occupiedSeatsList players).length - 1 -
        ((occupiedSeatsList players).length - 2) = 1 := by omega
    rw [hone]
    rfl

/-- Witness for C3 at the §8 scenario. -/
theorem claim_c3_witness :
    2 ≤ (occupiedSeatsList scenarioPlayers).length ∧
    7 ∈ occupiedSeatsList scenarioPlayers ∧
    ((∀ n i, positionLabel n i = positionLabelSpec n i) ∧
    (∀ i, i < (occupiedSeatsList scenarioPlayers).length →
      ((createPostflopOrder scenarioPlayers 7)[i]?).map (fun p => p.position) =
        some (positionLabelSpec (occupiedSeatsList scenarioPlayers).length i)) ∧
    (∀ i, 2 ≤ i → i < (occupiedSeatsList scenarioPlayers).length →
      ((createPreflopOrder scenarioPlayers 7)[i - 2]?).map (fun p => p.position) =
        some (positionLabelSpec (occupiedSeatsList scenarioPlayers).length i)) ∧
    (((createPreflopOrder scenarioPlayers 7)[(occupiedSeatsList scenarioPlayers).length - 2]?).map
        (fun p => p.position) =
      some (positionLabelSpec (occupiedSeatsList scenarioPlayers).length 0)) ∧
    (((createPreflopOrder scenarioPlayers 7)[(occupiedSeatsList scenarioPlayers).length - 1]?).map
        (fun p => p.position) =
      some (positionLabelSpec (occupiedSeatsList scenarioPlayers).length 1))) :=
  ⟨by decide, by decide,
    claim_c3_position_rule scenarioPlayers 7 (by decide) (by decide)⟩

section ActionMapLemmas

theorem lookup_foldl_actions (n : String) :
    ∀ (l : List ActionRec) (m : List (String × String)),
      ((lookupAssoc (l.foldl
        (fun m a => if a.player = "" then m else setAssoc m a.player a.action) m) n).isSome =
          true ↔
        (lookupAssoc m n).isSome = true ∨ ∃ a ∈ l, a.player = n ∧ a.player ≠ "")
  | [], m => by simp
  | a :: l, m => by
    rw [List.foldl_cons]
    by_cases ha : a.player = ""
    · rw [if_pos ha, lookup_foldl_actions n l m]
      constructor
      · rintro (h | ⟨x, hx, hxn, hxne⟩)
        · exact Or.inl h
        · exact Or.inr ⟨x, List.mem_cons_of_mem a hx, hxn, hxne⟩
      · rintro (h | ⟨x, hx, hxn, hxne⟩)
        · exact Or.inl h
        · rcases List.mem_cons.mp hx with rfl | hx'
          · exact absurd ha hxne
          · exact Or.inr ⟨x, hx', hxn, hxne⟩
    · rw [if_neg ha, lookup_foldl_actions n l (setAssoc m a.player a.action),
        lookupAssoc_setAssoc]
      by_cases hn : n = a.player
      · constructor
        · intro _
          exact Or.inr ⟨a, List.mem_cons_self a l, hn.symm, ha⟩
        · intro _
          left
          rw [if_pos hn]
          rfl
      · rw [if_neg hn]
        constructor
        · rintro (h | ⟨x, hx, hxn, hxne⟩)
          · exact Or.inl h
          · exact Or.inr ⟨x, List.mem_cons_of_mem a hx, hxn, hxne⟩
        · rintro (h | ⟨x, hx, hxn, hxne⟩)
          · exact Or.inl h
          · rcases List.mem_cons.mp hx with rfl | hx'
            · exact absurd hxn.symm hn
            · exact Or.inr ⟨x, hx', hxn, hxne⟩

theorem lookup_buildPlayerActions (actions : List ActionRec) (n : String) :
    (lookupAssoc (buildPlayerActions actions) n).isSome = true ↔
      ∃ a ∈ actions, a.player = n ∧ a.player ≠ "" := by
  unfold buildPlayerActions
  rw [lookup_foldl_actions n actions []]
  simp [lookupAssoc]

end ActionMapLemmas

/-- C6 (amended): with more than one active player,
`isBettingRoundComplete(street, actions)` is true iff every currently
active player has a recorded entry in `actions` whose player key is
non-empty (truthy); entries whose player key is the empty/falsy string
are skipped when the per-player map is built, so an active player with
an empty name is never counted as having acted. -/
theorem claim_c6_complete_iff_all_entered (s : ManagerState) (street : Street)
    (actions : List ActionRec)
    (h : 1 < ((getActionOrder s street).filter (fun p => p.canAct)).length) :
    (isBettingRoundComplete s street actions = true ↔
      ∀ p ∈ (getActionOrder s street).filter (fun p => p.canAct),
        ∃ a ∈ actions, a.player = p.player ∧ a.player ≠ "") := by
  simp only [isBettingRoundComplete]
  rw [if_neg (by omega), List.all_eq_true]
  constructor
  · intro hall p hp
    exact (lookup_buildPlayerActions actions p.player).mp (hall p hp)
  · intro hall p hp
    exact (lookup_buildPlayerActions actions p.player).mpr (hall p hp)

/-- C6 counterexample: two active players, one with the (falsy) empty
name; `actions` records one entry for each of them, yet the round is
reported incomplete, because the empty-keyed entry is skipped. -/
theorem claim_c6_counterexample :
    1 < ((getActionOrder emptyNameState Street.preflop).filter (fun p => p.canAct)).length ∧
    (∀ p ∈ (getActionOrder emptyNameState Street.preflop).filter (fun p => p.canAct),
      ∃ a ∈ emptyNameActions, a.player = p.player) ∧
    isBettingRoundComplete emptyNameState Street.preflop emptyNameActions = false :=
  ⟨by decide, by decide, by decide⟩

/-- Witness for C6's amended theorem at the §8 scenario with all four
players having acted. -/
theorem claim_c6_witness :
    1 < ((getActionOrder scenarioState Street.preflop).filter (fun p => p.canAct)).length ∧
    (isBettingRoundComplete scenarioState Street.preflop
        [⟨"p1", "call"⟩, ⟨"p3", "call"⟩, ⟨"p5", "call"⟩, ⟨"p7", "call"⟩] = true ↔
      ∀ p ∈ (getActionOrder scenarioState Street.preflop).filter (fun p => p.canAct),
        ∃ a ∈ ([⟨"p1", "call"⟩, ⟨"p3", "call"⟩, ⟨"p5", "call"⟩,
            ⟨"p7", "call"⟩] : List ActionRec),
          a.player = p.player ∧ a.player ≠ "") :=
  ⟨by decide, claim_c6_complete_iff_all_entered scenarioState Street.preflop _ (by decide)⟩

section SeatOverwriteLemmas

theorem lookup_foldl_seats (x : Nat) :
    ∀ (l : List Player) (m : List (Nat × Player)),
      lookupAssoc (l.foldl (fun m p => setAssoc m p.seat p) m) x =
        (l.reverse.find? (fun p => p.seat == x)).or (lookupAssoc m x)
  | [], m => by simp
  | p :: l, m => by
    rw [List.foldl_cons, lookup_foldl_seats x l (setAssoc m p.seat p),
      lookupAssoc_setAssoc, List.reverse_cons, List.find?_append]
    by_cases hx : x = p.seat
    · rw [if_pos hx]
      have hb : (p.seat == x) = true := beq_iff_eq.mpr hx.symm
      have hone : List.find? (fun q => q.seat == x) [p] = some p := by
        simp [List.find?, hb]
      rw [Option.or_assoc, hone]
      rfl
    · rw [if_neg hx]
      have hb : (p.seat == x) = false := by
        simp only [beq_eq_false_iff_ne, ne_eq]
        exact fun hh => hx hh.symm
      have hone : List.find? (fun q => q.seat == x) [p] = none := by
        simp [List.find?, hb]
      rw [Option.or_assoc, hone]
      rfl

theorem lookupSeatMap_last (players : List Player) (x : Nat) :
    lookupAssoc (buildSeatMap players) x =
      players.reverse.find? (fun p => p.seat == x) := by
  unfold buildSeatMap
  rw [lookup_foldl_seats x players []]
  simp [lookupAssoc]

theorem lookup_initStatus_not_mem :
    ∀ (l : List Player) (m : List (String × String)) (n : String),
      n ∉ l.map (fun p => p.name) →
      lookupAssoc (l.foldl (fun m p => setAssoc m p.name "active") m) n =
        lookupAssoc m n
  | [], _, _, _ => rfl
  | p :: l, m, n, h => by
    rw [List.foldl_cons]
    have hsplit : ¬ (n = p.name ∨ n ∈ l.map (fun p => p.name)) := by
      simpa using h
    have hn : n ∉ l.map (fun p => p.name) := fun hc => hsplit (Or.inr hc)
    have hne : ¬ n = p.name := fun hc => hsplit (Or.inl hc)
    rw [lookup_initStatus_not_mem l _ n hn, lookupAssoc_setAssoc, if_neg hne]

theorem lookup_initStatus_mem :
    ∀ (l : List Player) (m : List (String × String)) (n : String),
      n ∈ l.map (fun p => p.name) →
      lookupAssoc (l.foldl (fun m p => setAssoc m p.name "active") m) n =
        some "active"
  | [], _, _, h => by simp at h
  | p :: l, m, n, h => by
    rw [List.foldl_cons]
    by_cases hmem : n ∈ l.map (fun p => p.name)
    · exact lookup_initStatus_mem l _ n hmem
    · have hn : n = p.name := by
        rcases (by simpa using h : n = p.name ∨ n ∈ l.map (fun p => p.name)) with hh | hh
        · exact hh
        · exact absurd hh hmem
      rw [lookup_initStatus_not_mem l _ n hmem, lookupAssoc_setAssoc, if_pos hn]

theorem nodup_keys_foldl :
    ∀ (l : List Player) (m : List (Nat × Player)),
      (m.map Prod.fst).Nodup →
      ((l.foldl (fun m p => setAssoc m p.seat p) m).map Prod.fst).Nodup
  | [], _, h => h
  | p :: l, m, h => by
    rw [List.foldl_cons]
    apply nodup_keys_foldl l
    rw [keys_setAssoc]
    by_cases hmem : m.any (fun kv => kv.1 = p.seat) = true
    · rw [if_pos hmem]
      exact h
    · rw [if_neg hmem]
      have hnot : p.seat ∉ m.map Prod.fst :=
        fun hc => hmem ((any_key_iff m p.seat).mpr hc)
      simp [List.nodup_append, h, hnot]

theorem nodup_keys_buildSeatMap (players : List Player) :
    ((buildSeatMap players).map Prod.fst).Nodup :=
  nodup_keys_foldl players [] (by simp)

theorem length_occupiedSeatsList (players : List Player) :
    (occupiedSeatsList players).length =
      ((players.map (fun p => p.seat)).dedup).length := by
  have hperm := List.perm_insertionSort (fun a b : Nat => a ≤ b)
    ((buildSeatMap players).map Prod.fst)
  rw [occupiedSeatsList, hperm.length_eq]
  have h1 : ((buildSeatMap players).map Prod.fst).toFinset =
      ((players.map (fun p => p.seat)).dedup).toFinset := by
    ext x
    simp only [List.mem_toFinset, List.mem_dedup]
    exact mem_keys_buildSeatMap players x
  have h2 := List.toFinset_card_of_nodup (nodup_keys_buildSeatMap players)
  have h3 := List.toFinset_card_of_nodup
    (List.nodup_dedup (players.map (fun p => p.seat)))
  rw [h1] at h2
  omega

theorem dedup_length_lt_of_not_nodup {l : List Nat} (h : ¬ l.Nodup) :
    l.dedup.length < l.length := by
  have hsub := List.dedup_sublist l
  have hle := hsub.length_le
  rcases Nat.lt_or_ge l.dedup.length l.length with hlt | hge
  · exact hlt
  · exact absurd ((hsub.eq_of_length (le_antisymm hle hge)) ▸ List.nodup_dedup l) h

end SeatOverwriteLemmas

/-- C10 (amended): for a roster with duplicate seats, a valid button
seat, and at least two distinct occupied seats: the later roster entry
per seat overwrites the earlier one in the seat map (lookup returns the
last player with that seat); both tables built by `initializeHand` have
length = number of distinct seats, strictly less than the number of
players; the registry still maps every input player name to active; and
a player can be active in the registry yet appear in neither table.
(When all players share a single seat the original claim fails: the
preflop builder reads past the end of its positions array — a TypeError
in the JS source, a 2-slot table in this totalised model.) -/
theorem claim_c10_duplicate_seats (s : ManagerState) (handId : String)
    (players : List Player) (buttonSeat : Nat)
    (hdup : ¬ (players.map (fun p => p.seat)).Nodup)
    (hb : buttonSeat ∈ occupiedSeatsList players)
    (hN : 2 ≤ (occupiedSeatsList players).length) :
    (occupiedSeatsList players).length =
      ((players.map (fun p => p.seat)).dedup).length ∧
    ((initializeHand s players buttonSeat handId).preflopOrder).length =
      ((players.map (fun p => p.seat)).dedup).length ∧
    ((initializeHand s players buttonSeat handId).postflopOrder).length =
      ((players.map (fun p => p.seat)).dedup).length ∧
    ((players.map (fun p => p.seat)).dedup).length < players.length ∧
    (∀ x : Nat, lookupAssoc (buildSeatMap players) x =
      players.reverse.find? (fun p => p.seat == x)) ∧
    (∀ p ∈ players,
      lookupAssoc ((initializeHand s players buttonSeat handId).playerStatus) p.name =
        some "active") ∧
    (∃ (ps : List Player) (b : Nat) (hh nm : String),
      lookupAssoc ((initializeHand initialState ps b hh).playerStatus) nm =
        some "active" ∧
      nm ∉ ((initializeHand initialState ps b hh).preflopOrder).map (fun q => q.player) ∧
      nm ∉ ((initializeHand initialState ps b hh).postflopOrder).map
        (fun q => q.player)) := by
  obtain ⟨b, hbi⟩ := exists_idxOf_of_mem hb
  have hlo := length_occupiedSeatsList players
  refine ⟨hlo, ?_, ?_, ?_, fun x => lookupSeatMap_last players x, ?_, ?_⟩
  · have hip : (initializeHand s players buttonSeat handId).preflopOrder =
        createPreflopOrder players buttonSeat := rfl
    rw [hip, createPreflopOrder_eq players buttonSeat b hbi hN, List.length_append,
      List.length_map, List.length_range']
    simp only [List.length_cons, List.length_nil]
    omega
  · have hiq : (initializeHand s players buttonSeat handId).postflopOrder =
        createPostflopOrder players buttonSeat := rfl
    rw [hiq, createPostflopOrder_eq_map players buttonSeat b hbi, List.length_map,
      List.length_range, hlo]
  · have := dedup_length_lt_of_not_nodup hdup
    have hml : (players.map (fun p => p.seat)).length = players.length :=
      List.length_map _ _
    omega
  · intro p hp
    have hreg : (initializeHand s players buttonSeat handId).playerStatus =
        initStatus players := rfl
    rw [hreg]
    exact lookup_initStatus_mem players [] p.name
      (List.mem_map_of_mem (fun p => p.name) hp)
  · exact ⟨dupSeatPlayers, 1, "h", "A", by decide, by decide, by decide⟩

/-- C10 counterexample: both roster players share seat 1 (one distinct
seat, valid button), yet the preflop table built by `initializeHand`
has two slots, not one per distinct seat — the JS source in fact
throws here (`positions[1]` is undefined). -/
theorem claim_c10_counterexample :
    ¬ ((oneSeatPlayers.map (fun p => p.seat)).Nodup) ∧
    1 ∈ occupiedSeatsList oneSeatPlayers ∧
    ((initializeHand initialState oneSeatPlayers 1 "h").preflopOrder).length ≠
      ((oneSeatPlayers.map (fun p => p.seat)).dedup).length :=
  ⟨by decide, by decide, by decide⟩

/-- Witness for C10's amended theorem on a roster with seats 1, 1, 2. -/
theorem claim_c10_witness :
    (¬ ((dupSeatPlayers.map (fun p => p.seat)).Nodup) ∧
      1 ∈ occupiedSeatsList dupSeatPlayers ∧
      2 ≤ (occupiedSeatsList dupSeatPlayers).length) ∧
    ((occupiedSeatsList dupSeatPlayers).length =
      ((dupSeatPlayers.map (fun p => p.seat)).dedup).length ∧
    ((initializeHand initialState dupSeatPlayers 1 "h").preflopOrder).length =
      ((dupSeatPlayers.map (fun p => p.seat)).dedup).length ∧
    ((initializeHand initialState dupSeatPlayers 1 "h").postflopOrder).length =
      ((dupSeatPlayers.map (fun p => p.seat)).dedup).length ∧
    ((dupSeatPlayers.map (fun p => p.seat)).dedup).length < dupSeatPlayers.length ∧
    (∀ x : Nat, lookupAssoc (buildSeatMap dupSeatPlayers) x =
      dupSeatPlayers.reverse.find? (fun p => p.seat == x)) ∧
    (∀ p ∈ dupSeatPlayers,
      lookupAssoc ((initializeHand initialState dupSeatPlayers 1 "h").playerStatus) p.name =
        some "active") ∧
    (∃ (ps : List Player) (b : Nat) (hh nm : String),
      lookupAssoc ((initializeHand initialState ps b hh).playerStatus) nm =
        some "active" ∧
      nm ∉ ((initializeHand initialState ps b hh).preflopOrder).map (fun q => q.player) ∧
      nm ∉ ((initializeHand initialState ps b hh).postflopOrder).map
        (fun q => q.player))) :=
  ⟨⟨by decide, by decide, by decide⟩,
    claim_c10_duplicate_seats initialState "h" dupSeatPlayers 1
      (by decide) (by decide) (by decide)⟩
